import Mathlib

/-!
Verification of the decode-and-suppress core of `PyDetectionDNN.py`
(JeVois object-detection module).

The Python module's `postprocess` method decodes raw network output tensors
into candidate detections under three layouts (Faster-RCNN / im_info,
`DetectionOutput`, `Region`), filters them by a confidence threshold, and
hands the candidates to non-maximum suppression before drawing.

Numeric model: tensor values and confidences are rationals (ℚ), pixel
coordinates are integers (ℤ).  Python `int()` applied to a float truncates
toward zero; this is `pyInt` below.  A raw output tensor is a list of rows,
each row a list of rationals; `outs` is a list of such tensors.
-/

namespace JevoisDNN

/-- Python `int()` on a real value: truncation toward zero. -/
def pyInt (q : ℚ) : ℤ := if 0 ≤ q then ⌊q⌋ else -⌊-q⌋

/-- A bounding box as built by `postprocess`: `[left, top, width, height]`
in integer pixel coordinates. -/
structure Box where
  left : ℤ
  top : ℤ
  width : ℤ
  height : ℤ
deriving DecidableEq, Repr

/-- One decoded detection: the parallel entries pushed onto `classIds`,
`confidences` and `boxes` in `postprocess`. -/
structure Candidate where
  classId : ℤ
  confidence : ℚ
  box : Box
deriving DecidableEq, Repr

/-- Frame geometry: `frameHeight, frameWidth = frame.shape[0], frame.shape[1]`. -/
structure FrameGeom where
  width : ℤ
  height : ℤ
deriving DecidableEq, Repr

/-- The two thresholds set in the constructor:
`self.confThreshold = 0.5`, `self.nmsThreshold = 0.4`. -/
structure Config where
  confThreshold : ℚ
  nmsThreshold : ℚ
deriving DecidableEq, Repr

/-- The constructor's values: confidence threshold 0.5, NMS threshold 0.4. -/
def defaultConfig : Config := { confThreshold := 1/2, nmsThreshold := 2/5 }

/-- Decode one 7-element row `[batchId, classId, confidence, left, top, right,
bottom]` of the Faster-RCNN / R-FCN (`im_info`) branch of `postprocess`:
coordinates are already absolute pixels; `int()` is applied to each; the
candidate is emitted only when `confidence > self.confThreshold`, with
`classIds.append(int(detection[1]) - 1)` (background-label subtraction). -/
def decodeRcnnRow (cfg : Config) (row : List ℚ) : Option Candidate :=
  let confidence := row.getD 2 0
  if cfg.confThreshold < confidence then
    let left := pyInt (row.getD 3 0)
    let top := pyInt (row.getD 4 0)
    let right := pyInt (row.getD 5 0)
    let bottom := pyInt (row.getD 6 0)
    some { classId := pyInt (row.getD 1 0) - 1
           confidence := confidence
           box := { left := left, top := top
                    width := right - left + 1, height := bottom - top + 1 } }
  else none

/-- The Faster-RCNN / R-FCN branch over all tensors: `for out in outs: for
detection in out[0, 0]: ...` (each tensor is modelled as its list of rows). -/
def rcnnDecode (cfg : Config) (outs : List (List (List ℚ))) : List Candidate :=
  (outs.foldr (· ++ ·) []).filterMap (decodeRcnnRow cfg)

/-- Decode one 7-element row of the `DetectionOutput` branch: same layout, but
`left, top, right, bottom` are fractions scaled by the frame dimensions before
`int()` truncation:
`left = int(detection[3] * frameWidth)` etc. -/
def decodeDetOutRow (cfg : Config) (g : FrameGeom) (row : List ℚ) :
    Option Candidate :=
  let confidence := row.getD 2 0
  if cfg.confThreshold < confidence then
    let left := pyInt (row.getD 3 0 * g.width)
    let top := pyInt (row.getD 4 0 * g.height)
    let right := pyInt (row.getD 5 0 * g.width)
    let bottom := pyInt (row.getD 6 0 * g.height)
    some { classId := pyInt (row.getD 1 0) - 1
           confidence := confidence
           box := { left := left, top := top
                    width := right - left + 1, height := bottom - top + 1 } }
  else none

/-- The `DetectionOutput` branch over all tensors. -/
def detOutDecode (cfg : Config) (g : FrameGeom) (outs : List (List (List ℚ))) :
    List Candidate :=
  (outs.foldr (· ++ ·) []).filterMap (decodeDetOutRow cfg g)

/-- Model of `np.argmax` on a 1-D array: index of the first occurrence of the
maximum value (numpy documents that ties return the first occurrence);
`np.argmax` of an empty slice is modelled as 0 (the branch never consumes it:
an empty slice has confidence 0, below the threshold). -/
def npArgmax : List ℚ → ℕ
  | [] => 0
  | [_] => 0
  | x :: y :: rest =>
    let j := npArgmax (y :: rest)
    if x < (y :: rest).getD j 0 then j + 1 else 0

/-- Decode one row of the `Region` branch:
`scores = detection[5:]`, `classId = np.argmax(scores)`,
`confidence = scores[classId]`; if `confidence > self.confThreshold`, the
center/size geometry in elements 0..3 is scaled by the frame dimensions and
truncated with `int()`, and `left = int(center_x - width / 2)`,
`top = int(center_y - height / 2)`. -/
def decodeRegionRow (cfg : Config) (g : FrameGeom) (row : List ℚ) :
    Option Candidate :=
  let scores := row.drop 5
  let classId := npArgmax scores
  let confidence := scores.getD classId 0
  if cfg.confThreshold < confidence then
    let cx := pyInt (row.getD 0 0 * g.width)
    let cy := pyInt (row.getD 1 0 * g.height)
    let w := pyInt (row.getD 2 0 * g.width)
    let h := pyInt (row.getD 3 0 * g.height)
    some { classId := (classId : ℤ)
           confidence := confidence
           box := { left := pyInt ((cx : ℚ) - (w : ℚ) / 2)
                    top := pyInt ((cy : ℚ) - (h : ℚ) / 2)
                    width := w, height := h } }
  else none

/-- The `Region` branch over all tensors: `for out in outs: for detection in
out: ...`. -/
def regionDecode (cfg : Config) (g : FrameGeom) (outs : List (List (List ℚ))) :
    List Candidate :=
  (outs.foldr (· ++ ·) []).filterMap (decodeRegionRow cfg g)

/-- Modelled from the spec: `cv.dnn.NMSBoxes` is OpenCV library code, not
present in this repository.  §4.5 specifies the IoU as the standard rectangle
intersection area divided by union area, with zero-area rectangles yielding
IoU 0 against anything.  Division by zero in ℚ is 0, matching that clause. -/
def iou (a b : Box) : ℚ :=
  let interW : ℤ := max 0 (min (a.left + a.width) (b.left + b.width) - max a.left b.left)
  let interH : ℤ := max 0 (min (a.top + a.height) (b.top + b.height) - max a.top b.top)
  let interArea : ℤ := interW * interH
  let unionArea : ℤ := a.width * a.height + b.width * b.height - interArea
  (interArea : ℚ) / (unionArea : ℚ)

/-- Confidence-descending order used by the NMS sort: `a` may come before `b`
exactly when `b`'s confidence is at most `a`'s. -/
def confGE (a b : Candidate) : Prop := b.confidence ≤ a.confidence

instance : DecidableRel confGE :=
  fun a b => inferInstanceAs (Decidable (b.confidence ≤ a.confidence))

instance : IsTotal Candidate confGE :=
  ⟨fun a b => (le_total b.confidence a.confidence).imp id id⟩

instance : IsTrans Candidate confGE :=
  ⟨fun _ _ _ h h2 => le_trans h2 h⟩

/-- Modelled from the spec: the greedy pass of §4.5.  `kept` is the list of
already-kept candidates; a candidate whose IoU against any kept box is ≥ the
suppression threshold `t` is discarded, otherwise kept (appended). -/
def nmsGo (t : ℚ) (kept : List Candidate) : List Candidate → List Candidate
  | [] => []
  | c :: rest =>
    if kept.any (fun k => decide (t ≤ iou k.box c.box)) then nmsGo t kept rest
    else c :: nmsGo t (kept ++ [c]) rest

/-- Modelled from the spec: the NMS engine of §4.5 (`cv.dnn.NMSBoxes` is
external OpenCV code).  Candidates are stably sorted by confidence descending
(`List.insertionSort` with `confGE` is stable: an earlier candidate is
inserted before later equal-confidence ones), then the greedy pass runs; the
output is the kept list in the order boxes were kept. -/
def nmsBoxes (t : ℚ) (l : List Candidate) : List Candidate :=
  nmsGo t [] (List.insertionSort confGE l)

/-- Outcome of one `postprocess` call: the candidates drawn on the frame
(the NMS survivors, in kept order) and the error message logged via
`jevois.LERROR` when the output format is unrecognized. -/
structure PostOutcome where
  drawn : List Candidate
  error : Option String
deriving DecidableEq, Repr

/-- The dispatch of `postprocess`: first the `im_info` input-port test
(Faster-RCNN / R-FCN), then the last layer type against `DetectionOutput` and
`Region`; any other combination logs
`Unknown output layer type: <type>` and returns with nothing decoded and no
NMS run.  On the decode branches the candidate list goes through
`cv.dnn.NMSBoxes` and the survivors are drawn in index order. -/
def postprocess (cfg : Config) (g : FrameGeom) (hasImInfoPort : Bool)
    (lastLayerType : String) (outs : List (List (List ℚ))) : PostOutcome :=
  if hasImInfoPort then
    { drawn := nmsBoxes cfg.nmsThreshold (rcnnDecode cfg outs), error := none }
  else if lastLayerType = "DetectionOutput" then
    { drawn := nmsBoxes cfg.nmsThreshold (detOutDecode cfg g outs), error := none }
  else if lastLayerType = "Region" then
    { drawn := nmsBoxes cfg.nmsThreshold (regionDecode cfg g outs), error := none }
  else
    { drawn := [], error := some ("Unknown output layer type: " ++ lastLayerType) }

/-!
Model of Python name resolution for the `im_info` branch of `process`
(claim C10).  In CPython, a name that is neither a bound local of the
enclosing function nor a module-level global raises `NameError` when it is
loaded.  The branch executes

  `frame = cv.resize(frame, (self.inpWidth, self.inpHeight))`
  `self.net.setInput(np.array([inpHeight, inpWidth, 1.6], dtype=np.float32), im_info)`

where `inpHeight` and `inpWidth` carry no `self.` prefix.
-/

/-- The local names bound in `process` at the `im_info` branch: the three
parameters `self, inframe, outframe` and the assignments `frame`, `blob`
(`frameHeight`/`frameWidth` are also assigned earlier; included). -/
def processLocalNames : List String :=
  ["self", "inframe", "outframe", "frame", "frameHeight", "frameWidth", "blob"]

/-- The module-level global names of `PyDetectionDNN.py`: the four imports
and the class itself. -/
def moduleGlobalNames : List String :=
  ["jevois", "cv", "np", "sys", "PyDetectionDNN"]

/-- Loading a bare name in `process`: succeeds when the name is a bound local
or a module global, otherwise raises `NameError`. -/
def loadName (n : String) : Except String Unit :=
  if n ∈ processLocalNames ∨ n ∈ moduleGlobalNames then Except.ok ()
  else Except.error ("NameError: name " ++ n ++ " is not defined")

/-- The `im_info` branch of `process` as a sequence of name loads followed by
the inference (`net.forward`) and frame delivery (`outframe.sendCv`); CPython
evaluates the call arguments left to right, loading `inpHeight` then
`inpWidth` for the `im_info` array before `setInput` can run.  Returns the
delivery marker only if every load succeeds. -/
def processImInfoPath : Except String String := do
  let _ ← loadName "cv"
  let _ ← loadName "frame"
  let _ ← loadName "self"
  let _ ← loadName "np"
  let _ ← loadName "inpHeight"
  let _ ← loadName "inpWidth"
  pure "frame delivered"

/-! Sample data used in the concrete evaluations below. -/

/-- A `DetectionOutput` row `[0, 5, 0.9, 0.1, 0.2, 0.5, 0.6]`. -/
def ssdRow : List ℚ := [0, 5, 9/10, 1/10, 1/5, 1/2, 3/5]

/-- A `DetectionOutput` row whose fractional right/bottom are below its
left/top, so the decoded width and height are negative. -/
def ssdDegRow : List ℚ := [0, 5, 9/10, 1/2, 1/2, 1/10, 1/10]

/-- A `DetectionOutput` row whose left fraction scales to 7/4: truncation
gives 1 where rounding gives 2. -/
def ssdTruncRow : List ℚ := [0, 5, 9/10, 7/2560, 1/5, 1/2, 3/5]

/-- A Faster-RCNN row with absolute coordinates `right < left`, producing a
negative-width box. -/
def rcnnDegRow : List ℚ := [0, 5, 9/10, 10, 10, 5, 5]

/-- A Faster-RCNN row with raw class id 0 (background). -/
def rcnnBgRow : List ℚ := [0, 0, 9/10, 0, 0, 10, 10]

/-- A `Region` row with zero width/height fractions and a single score. -/
def regionDegRow : List ℚ := [1/2, 1/2, 0, 0, 0, 9/10]

/-- A 7-element `Region` row: under the layout `[cx, cy, w, h, s0, s1, s2]`
claimed by the spec the scores are `[0.9, 0.1, 0.6]` (argmax 0), but the code
slices `detection[5:] = [0.1, 0.6]` (argmax 1). -/
def regionTieRow : List ℚ := [0, 0, 0, 0, 9/10, 1/10, 3/5]

/-- The 640×480 frame geometry of the module's video mapping. -/
def g640 : FrameGeom := ⟨640, 480⟩

/-- NMS example: highest-confidence box at the left. -/
def cC : Candidate := ⟨0, 9/10, ⟨0, 0, 10, 10⟩⟩

/-- NMS example: middle box, overlapping both neighbours with IoU 3/7. -/
def cA : Candidate := ⟨0, 4/5, ⟨4, 0, 10, 10⟩⟩

/-- NMS example: right box, IoU 3/7 with `cA` but only 1/9 with `cC`. -/
def cB : Candidate := ⟨0, 7/10, ⟨8, 0, 10, 10⟩⟩

/-- Cross-class NMS example: class 1, confidence 0.9. -/
def cX : Candidate := ⟨1, 9/10, ⟨0, 0, 10, 10⟩⟩

/-- Cross-class NMS example: class 2, confidence 0.7, heavily overlapping
`cX`. -/
def cY : Candidate := ⟨2, 7/10, ⟨2, 0, 10, 10⟩⟩

/-! ### Helper lemmas: decoder inversion -/

/-- Inversion for the Faster-RCNN row decoder. -/
theorem decodeRcnnRow_some {cfg : Config} {row : List ℚ} {c : Candidate}
    (h : decodeRcnnRow cfg row = some c) :
    cfg.confThreshold < row.getD 2 0 ∧ c.confidence = row.getD 2 0 ∧
    c.classId = pyInt (row.getD 1 0) - 1 ∧
    c.box = ⟨pyInt (row.getD 3 0), pyInt (row.getD 4 0),
             pyInt (row.getD 5 0) - pyInt (row.getD 3 0) + 1,
             pyInt (row.getD 6 0) - pyInt (row.getD 4 0) + 1⟩ := by
  simp only [decodeRcnnRow] at h
  split at h
  · injection h with h
    subst h
    exact ⟨by assumption, rfl, rfl, rfl⟩
  · cases h

/-- Inversion for the `DetectionOutput` row decoder. -/
theorem decodeDetOutRow_some {cfg : Config} {g : FrameGeom} {row : List ℚ}
    {c : Candidate} (h : decodeDetOutRow cfg g row = some c) :
    cfg.confThreshold < row.getD 2 0 ∧ c.confidence = row.getD 2 0 ∧
    c.classId = pyInt (row.getD 1 0) - 1 ∧
    c.box = ⟨pyInt (row.getD 3 0 * g.width), pyInt (row.getD 4 0 * g.height),
             pyInt (row.getD 5 0 * g.width) - pyInt (row.getD 3 0 * g.width) + 1,
             pyInt (row.getD 6 0 * g.height) - pyInt (row.getD 4 0 * g.height) + 1⟩ := by
  simp only [decodeDetOutRow] at h
  split at h
  · injection h with h
    subst h
    exact ⟨by assumption, rfl, rfl, rfl⟩
  · cases h

/-- Inversion for the `Region` row decoder. -/
theorem decodeRegionRow_some {cfg : Config} {g : FrameGeom} {row : List ℚ}
    {c : Candidate} (h : decodeRegionRow cfg g row = some c) :
    cfg.confThreshold < (row.drop 5).getD (npArgmax (row.drop 5)) 0 ∧
    c.classId = (npArgmax (row.drop 5) : ℤ) ∧
    c.confidence = (row.drop 5).getD (npArgmax (row.drop 5)) 0 ∧
    c.box.width = pyInt (row.getD 2 0 * g.width) ∧
    c.box.height = pyInt (row.getD 3 0 * g.height) := by
  simp only [decodeRegionRow] at h
  split at h
  · injection h with h
    subst h
    exact ⟨by assumption, rfl, rfl, rfl, rfl⟩
  · cases h

/-- A row whose confidence passes the threshold is decoded to `some`
candidate by the Faster-RCNN row decoder. -/
theorem decodeRcnnRow_isSome {cfg : Config} {row : List ℚ}
    (h : cfg.confThreshold < row.getD 2 0) :
    ∃ c, decodeRcnnRow cfg row = some c := by
  simp only [decodeRcnnRow]
  rw [if_pos h]
  exact ⟨_, rfl⟩

/-- A row whose confidence passes the threshold is decoded to `some`
candidate by the `DetectionOutput` row decoder. -/
theorem decodeDetOutRow_isSome {cfg : Config} {g : FrameGeom} {row : List ℚ}
    (h : cfg.confThreshold < row.getD 2 0) :
    ∃ c, decodeDetOutRow cfg g row = some c := by
  simp only [decodeDetOutRow]
  rw [if_pos h]
  exact ⟨_, rfl⟩

/-- A row whose best score passes the threshold is decoded to `some`
candidate by the `Region` row decoder. -/
theorem decodeRegionRow_isSome {cfg : Config} {g : FrameGeom} {row : List ℚ}
    (h : cfg.confThreshold < (row.drop 5).getD (npArgmax (row.drop 5)) 0) :
    ∃ c, decodeRegionRow cfg g row = some c := by
  simp only [decodeRegionRow]
  rw [if_pos h]
  exact ⟨_, rfl⟩

/-! ### Helper lemmas: `npArgmax` -/

/-- Every entry before the returned index is strictly below the maximum:
`np.argmax` returns the first occurrence of the maximum. -/
theorem npArgmax_first : ∀ (l : List ℚ) (i : ℕ), i < npArgmax l →
    l.getD i 0 < l.getD (npArgmax l) 0 := by
  intro l
  induction l with
  | nil => simp [npArgmax]
  | cons x xs ih =>
    cases xs with
    | nil => simp [npArgmax]
    | cons y rest =>
      intro i hi
      simp only [npArgmax] at hi ⊢
      by_cases hx : x < (y :: rest).getD (npArgmax (y :: rest)) 0
      · rw [if_pos hx] at hi ⊢
        cases i with
        | zero => simpa using hx
        | succ i' =>
          have hi' : i' < npArgmax (y :: rest) := Nat.lt_of_succ_lt_succ hi
          simpa using ih i' hi'
      · rw [if_neg hx] at hi
        exact absurd hi (Nat.not_lt_zero i)

/-- The returned entry is a maximum of the list. -/
theorem npArgmax_le : ∀ (l : List ℚ) (i : ℕ), i < l.length →
    l.getD i 0 ≤ l.getD (npArgmax l) 0 := by
  intro l
  induction l with
  | nil => simp
  | cons x xs ih =>
    cases xs with
    | nil =>
      intro i hi
      cases i with
      | zero => simp [npArgmax]
      | succ i' => exact absurd hi (by simp)
    | cons y rest =>
      intro i hi
      simp only [npArgmax]
      by_cases hx : x < (y :: rest).getD (npArgmax (y :: rest)) 0
      · rw [if_pos hx]
        cases i with
        | zero => simpa using le_of_lt hx
        | succ i' =>
          have hi' : i' < (y :: rest).length := Nat.lt_of_succ_lt_succ hi
          simpa using ih i' hi'
      · rw [if_neg hx]
        cases i with
        | zero => simp
        | succ i' =>
          have hi' : i' < (y :: rest).length := Nat.lt_of_succ_lt_succ hi
          simp only [List.getD_cons_succ, List.getD_cons_zero]
          exact le_trans (ih i' hi') (not_lt.mp hx)

/-! ### Helper lemmas: the greedy NMS pass -/

/-- The greedy pass emits a subsequence of its input. -/
theorem nmsGo_sublist (t : ℚ) :
    ∀ (l kept : List Candidate), List.Sublist (nmsGo t kept l) l := by
  intro l
  induction l with
  | nil => intro kept; simp [nmsGo]
  | cons c rest ih =>
    intro kept
    simp only [nmsGo]
    split
    · exact (ih kept).trans (List.sublist_cons_self c rest)
    · exact (ih (kept ++ [c])).cons₂ c

/-- Every candidate emitted by the greedy pass has IoU strictly below the
threshold against every box that was already kept when the pass started. -/
theorem nmsGo_not_suppressed (t : ℚ) :
    ∀ (l kept : List Candidate), ∀ c ∈ nmsGo t kept l, ∀ k ∈ kept,
      iou k.box c.box < t := by
  intro l
  induction l with
  | nil =>
    intro kept c hc
    simp [nmsGo] at hc
  | cons c rest ih =>
    intro kept c' hc' k hk
    simp only [nmsGo] at hc'
    split at hc'
    · exact ih kept c' hc' k hk
    case isFalse h =>
      rcases List.mem_cons.mp hc' with rfl | hmem
      · simp only [List.any_eq_true, decide_eq_true_eq, not_exists, not_and,
          not_le] at h
        exact h k hk
      · exact ih (kept ++ [c]) c' hmem k (List.mem_append_left _ hk)

/-- Any two candidates surviving the greedy pass have mutual IoU strictly
below the threshold. -/
theorem nmsGo_pairwise (t : ℚ) :
    ∀ (l kept : List Candidate),
      (nmsGo t kept l).Pairwise (fun a b => iou a.box b.box < t) := by
  intro l
  induction l with
  | nil => intro kept; simp [nmsGo]
  | cons c rest ih =>
    intro kept
    simp only [nmsGo]
    split
    · exact ih kept
    · exact List.Pairwise.cons
        (fun b hb => nmsGo_not_suppressed t rest (kept ++ [c]) b hb c (by simp))
        (ih (kept ++ [c]))

/-- The greedy pass is the identity on a list whose members clear every
already-kept box and whose pairwise IoU stays below the threshold. -/
theorem nmsGo_eq_self (t : ℚ) :
    ∀ (l kept : List Candidate),
      (∀ c ∈ l, ∀ k ∈ kept, iou k.box c.box < t) →
      l.Pairwise (fun a b => iou a.box b.box < t) →
      nmsGo t kept l = l := by
  intro l
  induction l with
  | nil => intro kept _ _; simp [nmsGo]
  | cons c rest ih =>
    intro kept hk hp
    have hcond : (kept.any fun k => decide (t ≤ iou k.box c.box)) = false := by
      simp only [List.any_eq_false, decide_eq_true_eq, not_le]
      intro k hkk
      exact hk c (List.mem_cons_self c rest) k hkk
    rw [List.pairwise_cons] at hp
    simp only [nmsGo]
    rw [if_neg (by simp [hcond])]
    refine congrArg (c :: ·) (ih (kept ++ [c]) ?_ hp.2)
    intro c' hc' k hkk
    rcases List.mem_append.mp hkk with hkl | hkr
    · exact hk c' (List.mem_cons_of_mem c hc') k hkl
    · have hkc : k = c := by simpa using hkr
      subst hkc
      exact hp.1 c' hc'

/-- NMS output is sorted by confidence descending. -/
theorem nmsBoxes_sorted (t : ℚ) (l : List Candidate) :
    List.Sorted confGE (nmsBoxes t l) :=
  List.Pairwise.sublist (nmsGo_sublist t (List.insertionSort confGE l) [])
    (List.sorted_insertionSort confGE l)

/-- Any two NMS survivors have mutual IoU strictly below the threshold. -/
theorem nmsBoxes_pairwise (t : ℚ) (l : List Candidate) :
    (nmsBoxes t l).Pairwise (fun a b => iou a.box b.box < t) :=
  nmsGo_pairwise t (List.insertionSort confGE l) []

/-! ### Claim theorems -/

/-- Claim C4: for the region-proposal and single-shot decoders, every emitted
candidate's `classId` equals the raw row's class id minus 1 (background-label
subtraction), so a row whose raw class id is 0 never yields a candidate still
carrying class id 0. -/
theorem C4_background_label_subtraction (cfg : Config) (g : FrameGeom)
    (outs : List (List (List ℚ))) (c : Candidate) :
    (c ∈ rcnnDecode cfg outs →
      ∃ row, row ∈ outs.foldr (· ++ ·) [] ∧
        c.classId = pyInt (row.getD 1 0) - 1 ∧
        (pyInt (row.getD 1 0) = 0 → c.classId ≠ 0)) ∧
    (c ∈ detOutDecode cfg g outs →
      ∃ row, row ∈ outs.foldr (· ++ ·) [] ∧
        c.classId = pyInt (row.getD 1 0) - 1 ∧
        (pyInt (row.getD 1 0) = 0 → c.classId ≠ 0)) := by
  constructor
  · intro hc
    rcases List.mem_filterMap.mp hc with ⟨row, hrow, hdec⟩
    rcases decodeRcnnRow_some hdec with ⟨-, -, hcls, -⟩
    refine ⟨row, hrow, hcls, fun h0 => ?_⟩
    rw [hcls, h0]
    decide
  · intro hc
    rcases List.mem_filterMap.mp hc with ⟨row, hrow, hdec⟩
    rcases decodeDetOutRow_some hdec with ⟨-, -, hcls, -⟩
    refine ⟨row, hrow, hcls, fun h0 => ?_⟩
    rw [hcls, h0]
    decide

/-- Claim C4 witness: the background row `[0, 0, 0.9, 0, 0, 10, 10]` decodes
to class id -1, never 0. -/
theorem C4_witness :
    ∃ row, row ∈ ([[rcnnBgRow]] : List (List (List ℚ))).foldr (· ++ ·) [] ∧
      (⟨-1, 9/10, ⟨0, 0, 11, 11⟩⟩ : Candidate).classId = pyInt (row.getD 1 0) - 1 ∧
      (pyInt (row.getD 1 0) = 0 →
        (⟨-1, 9/10, ⟨0, 0, 11, 11⟩⟩ : Candidate).classId ≠ 0) :=
  (C4_background_label_subtraction defaultConfig g640 [[rcnnBgRow]]
      ⟨-1, 9/10, ⟨0, 0, 11, 11⟩⟩).1
    (by norm_num [rcnnDecode, decodeRcnnRow, defaultConfig, rcnnBgRow, pyInt])

/-- Claim C5: for every decoder and every input row, a candidate whose
confidence is at most the threshold never appears in the decoder's output;
the comparison is strict. -/
theorem C5_confidence_strictly_above_threshold (cfg : Config) (g : FrameGeom)
    (outs : List (List (List ℚ))) (c : Candidate)
    (h : c ∈ rcnnDecode cfg outs ∨ c ∈ detOutDecode cfg g outs ∨
         c ∈ regionDecode cfg g outs) :
    cfg.confThreshold < c.confidence := by
  rcases h with h | h | h
  · rcases List.mem_filterMap.mp h with ⟨row, -, hdec⟩
    rcases decodeRcnnRow_some hdec with ⟨hlt, hconf, -, -⟩
    rw [hconf]
    exact hlt
  · rcases List.mem_filterMap.mp h with ⟨row, -, hdec⟩
    rcases decodeDetOutRow_some hdec with ⟨hlt, hconf, -, -⟩
    rw [hconf]
    exact hlt
  · rcases List.mem_filterMap.mp h with ⟨row, -, hdec⟩
    rcases decodeRegionRow_some hdec with ⟨hlt, -, hconf, -, -⟩
    rw [hconf]
    exact hlt

/-- Claim C5 witness: the decoded `ssdRow` candidate has confidence 0.9,
strictly above the default 0.5 threshold. -/
theorem C5_witness :
    defaultConfig.confThreshold <
      (⟨4, 9/10, ⟨64, 96, 257, 193⟩⟩ : Candidate).confidence :=
  C5_confidence_strictly_above_threshold defaultConfig g640 [[ssdRow]]
    ⟨4, 9/10, ⟨64, 96, 257, 193⟩⟩
    (Or.inr (Or.inl (by
      norm_num [detOutDecode, decodeDetOutRow, defaultConfig, ssdRow, pyInt, g640])))

/-- Claim C7: when the network has no `im_info` input port and the last-layer
type is neither `DetectionOutput` nor `Region`, `postprocess` logs the
unknown-type error carrying the type string and returns with an empty
detection result: nothing is decoded and NMS never runs. -/
theorem C7_unknown_output_format (cfg : Config) (g : FrameGeom)
    (outs : List (List (List ℚ))) (t : String)
    (h1 : t ≠ "DetectionOutput") (h2 : t ≠ "Region") :
    postprocess cfg g false t outs =
      { drawn := [], error := some ("Unknown output layer type: " ++ t) } := by
  simp [postprocess, h1, h2]

/-- Claim C7 witness: a `Softmax` last layer with no `im_info` port yields
the error outcome and an empty result. -/
theorem C7_witness :
    postprocess defaultConfig g640 false "Softmax" [] =
      { drawn := [], error := some ("Unknown output layer type: " ++ "Softmax") } :=
  C7_unknown_output_format defaultConfig g640 [] "Softmax" (by decide) (by decide)

/-- Claim C8: NMS is idempotent: applying the engine to its own output with
the same threshold returns that output unchanged. -/
theorem C8_nms_idempotent (t : ℚ) (l : List Candidate) :
    nmsBoxes t (nmsBoxes t l) = nmsBoxes t l := by
  have hs : List.insertionSort confGE (nmsBoxes t l) = nmsBoxes t l :=
    List.Sorted.insertionSort_eq (nmsBoxes_sorted t l)
  show nmsGo t [] (List.insertionSort confGE (nmsBoxes t l)) = nmsBoxes t l
  rw [hs]
  exact nmsGo_eq_self t (nmsBoxes t l) [] (by simp) (nmsBoxes_pairwise t l)

/-- Claim C9: suppression is not scoped per class: the class-1 candidate `cX`
(confidence 0.9) suppresses the overlapping class-2 candidate `cY`
(confidence 0.7, IoU 2/3 ≥ 2/5). -/
theorem C9_cross_class_suppression :
    nmsBoxes (2/5) [cX, cY] = [cX] ∧ cX.classId ≠ cY.classId ∧
    (2/5 : ℚ) ≤ iou cX.box cY.box ∧ cY.confidence < cX.confidence := by
  refine ⟨?_, by norm_num [cX, cY], by norm_num [iou, cX, cY],
    by norm_num [cX, cY]⟩
  show nmsGo (2/5) [] (List.insertionSort confGE [cX, cY]) = [cX]
  have hs : List.insertionSort confGE [cX, cY] = [cX, cY] := by
    norm_num [List.insertionSort, List.orderedInsert, confGE, cX, cY]
  rw [hs]
  norm_num [nmsGo, iou, cX, cY]

/-- Claim C10: the `im_info` branch of `process` loads the bare names
`inpHeight` and `inpWidth`, which are neither locals of `process` nor module
globals, so the branch stops with a `NameError` before inference and never
delivers a frame. -/
theorem C10_im_info_branch_name_error :
    processImInfoPath = Except.error "NameError: name inpHeight is not defined" ∧
    "inpHeight" ∉ processLocalNames ∧ "inpHeight" ∉ moduleGlobalNames ∧
    "inpWidth" ∉ processLocalNames ∧ "inpWidth" ∉ moduleGlobalNames ∧
    Except.isOk processImInfoPath = false := by
  exact ⟨rfl, by decide, by decide, by decide, by decide, rfl⟩

/-- Claim C1 counterexample: the single-shot decoder emits the row
`[0, 5, 0.9, 0.5, 0.5, 0.1, 0.1]` (right/bottom fractions below left/top) as
a candidate whose box has width -255 and height -191: a degenerate box is
propagated into the candidate list, not discarded. -/
theorem C1_counterexample :
    detOutDecode defaultConfig g640 [[ssdDegRow]] =
      [⟨4, 9/10, ⟨320, 240, -255, -191⟩⟩] ∧
    (-255 : ℤ) ≤ 0 ∧ (-191 : ℤ) ≤ 0 := by
  refine ⟨?_, by decide, by decide⟩
  have hrow : decodeDetOutRow defaultConfig g640 ssdDegRow =
      some ⟨4, 9/10, ⟨320, 240, -255, -191⟩⟩ := by
    norm_num [decodeDetOutRow, defaultConfig, ssdDegRow, pyInt, g640]
  simp [detOutDecode, hrow]

/-- Claim C1 amended: no decoder filters on geometry: every row whose
confidence passes the threshold contributes its candidate to the decoder's
output, including candidates whose box has non-positive width or height, as
the concrete degenerate outputs of the RCNN and Region decoders show. -/
theorem C1_amended_degenerate_boxes_propagated :
    (∀ (cfg : Config) (outs : List (List (List ℚ))) (row : List ℚ),
      row ∈ outs.foldr (· ++ ·) [] → cfg.confThreshold < row.getD 2 0 →
      ∃ c, decodeRcnnRow cfg row = some c ∧ c ∈ rcnnDecode cfg outs) ∧
    (∀ (cfg : Config) (g : FrameGeom) (outs : List (List (List ℚ)))
      (row : List ℚ),
      row ∈ outs.foldr (· ++ ·) [] → cfg.confThreshold < row.getD 2 0 →
      ∃ c, decodeDetOutRow cfg g row = some c ∧ c ∈ detOutDecode cfg g outs) ∧
    (∀ (cfg : Config) (g : FrameGeom) (outs : List (List (List ℚ)))
      (row : List ℚ),
      row ∈ outs.foldr (· ++ ·) [] →
      cfg.confThreshold < (row.drop 5).getD (npArgmax (row.drop 5)) 0 →
      ∃ c, decodeRegionRow cfg g row = some c ∧ c ∈ regionDecode cfg g outs) ∧
    rcnnDecode defaultConfig [[rcnnDegRow]] = [⟨4, 9/10, ⟨10, 10, -4, -4⟩⟩] ∧
    regionDecode defaultConfig g640 [[regionDegRow]] =
      [⟨0, 9/10, ⟨320, 240, 0, 0⟩⟩] := by
  refine ⟨?_, ?_, ?_, ?_, ?_⟩
  · intro cfg outs row hrow hconf
    obtain ⟨c, hc⟩ := decodeRcnnRow_isSome hconf
    exact ⟨c, hc, List.mem_filterMap.mpr ⟨row, hrow, hc⟩⟩
  · intro cfg g outs row hrow hconf
    obtain ⟨c, hc⟩ := decodeDetOutRow_isSome hconf
    exact ⟨c, hc, List.mem_filterMap.mpr ⟨row, hrow, hc⟩⟩
  · intro cfg g outs row hrow hconf
    obtain ⟨c, hc⟩ := decodeRegionRow_isSome hconf
    exact ⟨c, hc, List.mem_filterMap.mpr ⟨row, hrow, hc⟩⟩
  · have hrow : decodeRcnnRow defaultConfig rcnnDegRow =
        some ⟨4, 9/10, ⟨10, 10, -4, -4⟩⟩ := by
      norm_num [decodeRcnnRow, defaultConfig, rcnnDegRow, pyInt]
    simp [rcnnDecode, hrow]
  · have hrow : decodeRegionRow defaultConfig g640 regionDegRow =
        some ⟨0, 9/10, ⟨320, 240, 0, 0⟩⟩ := by
      norm_num [decodeRegionRow, defaultConfig, regionDegRow, npArgmax, pyInt,
        g640]
    simp [regionDecode, hrow]

/-- Claim C1 witness: the degenerate single-shot row is decoded and its
candidate is a member of the decoder's output. -/
theorem C1_witness :
    ∃ c, decodeDetOutRow defaultConfig g640 ssdDegRow = some c ∧
      c ∈ detOutDecode defaultConfig g640 [[ssdDegRow]] :=
  C1_amended_degenerate_boxes_propagated.2.1 defaultConfig g640 [[ssdDegRow]]
    ssdDegRow (by simp) (by norm_num [ssdDegRow, defaultConfig])

/-- Claim C2 counterexample: on the 7-element Region row
`[0, 0, 0, 0, 0.9, 0.1, 0.6]` the claim predicts the argmax over the scores
starting at index 4 (index 0, confidence 0.9), but the code slices
`detection[5:]` and emits class id 1 with confidence 0.6. -/
theorem C2_counterexample :
    regionDecode defaultConfig g640 [[regionTieRow]] =
      [⟨1, 3/5, ⟨0, 0, 0, 0⟩⟩] ∧
    npArgmax (regionTieRow.drop 4) = 0 ∧
    (regionTieRow.drop 4).getD 0 0 = 9/10 := by
  refine ⟨?_, by norm_num [regionTieRow, npArgmax], by norm_num [regionTieRow]⟩
  have hrow : decodeRegionRow defaultConfig g640 regionTieRow =
      some ⟨1, 3/5, ⟨0, 0, 0, 0⟩⟩ := by
    norm_num [decodeRegionRow, defaultConfig, regionTieRow, npArgmax, pyInt,
      g640]
  simp [regionDecode, hrow]

/-- Claim C2 amended: the Region decoder's argmax runs over the elements from
index 5 of the row (the element at index 4 is skipped); the emitted class id
is the first index attaining the maximum of that slice (ties resolve to the
lowest index) and the emitted confidence is that maximum. -/
theorem C2_amended_region_argmax_from_index_five (cfg : Config)
    (g : FrameGeom) (row : List ℚ) (c : Candidate)
    (h : decodeRegionRow cfg g row = some c) :
    c.classId = (npArgmax (row.drop 5) : ℤ) ∧
    c.confidence = (row.drop 5).getD (npArgmax (row.drop 5)) 0 ∧
    (∀ i < (row.drop 5).length, (row.drop 5).getD i 0 ≤ c.confidence) ∧
    (∀ i < npArgmax (row.drop 5), (row.drop 5).getD i 0 < c.confidence) := by
  rcases decodeRegionRow_some h with ⟨-, hcls, hconf, -, -⟩
  refine ⟨hcls, hconf, ?_, ?_⟩
  · intro i hi
    rw [hconf]
    exact npArgmax_le _ i hi
  · intro i hi
    rw [hconf]
    exact npArgmax_first _ i hi

/-- Claim C2 witness: the amended argmax description instantiated on the
tie row. -/
theorem C2_witness :
    (⟨1, 3/5, ⟨0, 0, 0, 0⟩⟩ : Candidate).classId =
      (npArgmax (regionTieRow.drop 5) : ℤ) ∧
    (⟨1, 3/5, ⟨0, 0, 0, 0⟩⟩ : Candidate).confidence =
      (regionTieRow.drop 5).getD (npArgmax (regionTieRow.drop 5)) 0 ∧
    (∀ i < (regionTieRow.drop 5).length,
      (regionTieRow.drop 5).getD i 0 ≤
        (⟨1, 3/5, ⟨0, 0, 0, 0⟩⟩ : Candidate).confidence) ∧
    (∀ i < npArgmax (regionTieRow.drop 5),
      (regionTieRow.drop 5).getD i 0 <
        (⟨1, 3/5, ⟨0, 0, 0, 0⟩⟩ : Candidate).confidence) :=
  C2_amended_region_argmax_from_index_five defaultConfig g640 regionTieRow
    ⟨1, 3/5, ⟨0, 0, 0, 0⟩⟩
    (by norm_num [decodeRegionRow, defaultConfig, regionTieRow, npArgmax,
      pyInt, g640])

/-- Claim C3 counterexample: the row with left fraction 7/2560 scales to 7/4;
the code truncates `int(7/4) = 1` while the claimed rounding gives 2, so the
emitted left coordinate is not `round(rawLeft * frameWidth)`. -/
theorem C3_counterexample :
    detOutDecode defaultConfig g640 [[ssdTruncRow]] =
      [⟨4, 9/10, ⟨1, 96, 320, 193⟩⟩] ∧
    round (ssdTruncRow.getD 3 0 * ((g640.width : ℤ) : ℚ)) = 2 := by
  constructor
  · have hrow : decodeDetOutRow defaultConfig g640 ssdTruncRow =
        some ⟨4, 9/10, ⟨1, 96, 320, 193⟩⟩ := by
      norm_num [decodeDetOutRow, defaultConfig, ssdTruncRow, pyInt, g640]
    simp [detOutDecode, hrow]
  · rw [round_eq]
    norm_num [ssdTruncRow, g640]

/-- Claim C3 amended: the single-shot decoder obtains box coordinates by
truncating (toward zero, Python `int()`) the fractional coordinates scaled by
the frame dimensions; on the concrete row `[0, 5, 0.9, 0.1, 0.2, 0.5, 0.6]`
at 640×480 this still yields box (64, 96, 257, 193) with class id 4. -/
theorem C3_amended_truncated_scaling (cfg : Config) (g : FrameGeom)
    (row : List ℚ) (c : Candidate) (h : decodeDetOutRow cfg g row = some c) :
    (c.box.left = pyInt (row.getD 3 0 * g.width) ∧
     c.box.top = pyInt (row.getD 4 0 * g.height) ∧
     c.box.width =
       pyInt (row.getD 5 0 * g.width) - pyInt (row.getD 3 0 * g.width) + 1 ∧
     c.box.height =
       pyInt (row.getD 6 0 * g.height) - pyInt (row.getD 4 0 * g.height) + 1) ∧
    (∀ q : ℚ, 0 ≤ q → (pyInt q : ℚ) ≤ q ∧ q < (pyInt q : ℚ) + 1) ∧
    detOutDecode defaultConfig g640 [[ssdRow]] =
      [⟨4, 9/10, ⟨64, 96, 257, 193⟩⟩] := by
  refine ⟨?_, ?_, ?_⟩
  · rcases decodeDetOutRow_some h with ⟨-, -, -, hbox⟩
    exact ⟨by rw [hbox], by rw [hbox], by rw [hbox], by rw [hbox]⟩
  · intro q hq
    have hfl : pyInt q = ⌊q⌋ := if_pos hq
    constructor
    · rw [hfl]
      exact Int.floor_le q
    · rw [hfl]
      exact Int.lt_floor_add_one q
  · have hrow : decodeDetOutRow defaultConfig g640 ssdRow =
        some ⟨4, 9/10, ⟨64, 96, 257, 193⟩⟩ := by
      norm_num [decodeDetOutRow, defaultConfig, ssdRow, pyInt, g640]
    simp [detOutDecode, hrow]

/-- Claim C3 witness: the truncated-scaling description instantiated on the
concrete single-shot row. -/
theorem C3_witness :
    (⟨4, 9/10, ⟨64, 96, 257, 193⟩⟩ : Candidate).box.left =
      pyInt (ssdRow.getD 3 0 * g640.width) ∧
    (⟨4, 9/10, ⟨64, 96, 257, 193⟩⟩ : Candidate).box.top =
      pyInt (ssdRow.getD 4 0 * g640.height) ∧
    (⟨4, 9/10, ⟨64, 96, 257, 193⟩⟩ : Candidate).box.width =
      pyInt (ssdRow.getD 5 0 * g640.width) -
        pyInt (ssdRow.getD 3 0 * g640.width) + 1 ∧
    (⟨4, 9/10, ⟨64, 96, 257, 193⟩⟩ : Candidate).box.height =
      pyInt (ssdRow.getD 6 0 * g640.height) -
        pyInt (ssdRow.getD 4 0 * g640.height) + 1 :=
  (C3_amended_truncated_scaling defaultConfig g640 ssdRow
    ⟨4, 9/10, ⟨64, 96, 257, 193⟩⟩
    (by norm_num [decodeDetOutRow, defaultConfig, ssdRow, pyInt, g640])).1

set_option maxHeartbeats 1000000 in
/-- Claim C6 counterexample: with threshold 2/5, in the input
`[cC, cA, cB]` the pair `(cA, cB)` has IoU 3/7 ≥ 2/5 and `cA` is the
higher-confidence member, yet the survivor list is `[cC, cB]`: `cA` is
suppressed by `cC`, after which the lower-confidence `cB` survives, so it is
not always the higher-confidence member of a high-IoU pair that survives. -/
theorem C6_counterexample :
    nmsBoxes (2/5) [cC, cA, cB] = [cC, cB] ∧
    (2/5 : ℚ) ≤ iou cA.box cB.box ∧
    cB.confidence < cA.confidence := by
  refine ⟨?_, by norm_num [iou, cA, cB], by norm_num [cA, cB]⟩
  show nmsGo (2/5) [] (List.insertionSort confGE [cC, cA, cB]) = [cC, cB]
  have hs : List.insertionSort confGE [cC, cA, cB] = [cC, cA, cB] := by
    norm_num [List.insertionSort, List.orderedInsert, confGE, cC, cA, cB]
  rw [hs]
  norm_num [nmsGo, iou, cC, cA, cB]

/-- Claim C6 amended: the NMS engine processes candidates in stable
confidence-descending order and discards a candidate whose IoU against any
kept box reaches the threshold; survivors are confidence-descending with
pairwise IoU below the threshold (so at most one of any high-IoU pair
survives), and in a two-candidate input the higher-confidence one survives
regardless of order.  In larger inputs the lower-confidence member of a
high-IoU pair can survive when the higher member is itself suppressed. -/
theorem C6_amended_greedy_nms :
    (∀ (t : ℚ) (l : List Candidate), List.Sorted confGE (nmsBoxes t l)) ∧
    (∀ (t : ℚ) (l : List Candidate),
      (nmsBoxes t l).Pairwise (fun a b => iou a.box b.box < t)) ∧
    (∀ (t : ℚ) (x y : Candidate), t ≤ iou x.box y.box →
      y.confidence < x.confidence →
      nmsBoxes t [x, y] = [x] ∧ nmsBoxes t [y, x] = [x]) := by
  refine ⟨nmsBoxes_sorted, nmsBoxes_pairwise, ?_⟩
  intro t x y h1 h2
  have hxy : confGE x y := le_of_lt h2
  have hyx : ¬ confGE y x := not_le.mpr h2
  have h1d : decide (t ≤ iou x.box y.box) = true := decide_eq_true h1
  have hgo : nmsGo t [] [x, y] = [x] := by
    simp only [nmsGo, List.any_nil, List.any_cons, List.nil_append, h1d,
      Bool.or_false, Bool.false_eq_true, if_false, if_true]
  constructor
  · show nmsGo t [] (List.insertionSort confGE [x, y]) = [x]
    have hs : List.insertionSort confGE [x, y] = [x, y] := by
      simp [List.insertionSort, List.orderedInsert, hxy]
    rw [hs, hgo]
  · show nmsGo t [] (List.insertionSort confGE [y, x]) = [x]
    have hs : List.insertionSort confGE [y, x] = [x, y] := by
      simp [List.insertionSort, List.orderedInsert, hyx]
    rw [hs, hgo]

/-- Claim C6 witness: the two-candidate order-independence instantiated on
`cA` and `cB`. -/
theorem C6_witness :
    nmsBoxes (2/5) [cA, cB] = [cA] ∧ nmsBoxes (2/5) [cB, cA] = [cA] :=
  C6_amended_greedy_nms.2.2 (2/5) cA cB (by norm_num [iou, cA, cB])
    (by norm_num [cA, cB])

end JevoisDNN
